import Mathlib

/-!
Verification of the django-messaging-demo-project repository.

The repository is Django glue code: event/video models and views, fixture
commands, and a pytest configuration, all around an external chat library.
We embed the repository functions shallowly: Python strings become Lean
strings manipulated through faithful models of the Python primitives
(split, strip, in), Django querysets become lists, and ORM get_or_create
becomes an explicit find-or-append on a list state.  Operations of the
external chat library that the repository only exercises through its tests
(leave with admin transfer, message edit/delete, reactions) are modelled
from the specification and marked as such in their doc comments.
-/

/-! ## Python string primitives -/

/-- Does the pattern `pat` lead the character list `s`? -/
def charsLead : List Char → List Char → Bool
  | [], _ => true
  | _ :: _, [] => false
  | p :: ps, c :: cs => p == c && charsLead ps cs

/-- Fuel-indexed worker for Python `str.split` on a non-empty separator:
scans left to right, cutting at each non-overlapping occurrence of `pat`. -/
def splitChars (pat : List Char) : Nat → List Char → List (List Char)
  | 0, s => [s]
  | _ + 1, [] => [[]]
  | fuel + 1, c :: rest =>
    if !pat.isEmpty && charsLead pat (c :: rest) then
      [] :: splitChars pat fuel ((c :: rest).drop pat.length)
    else
      match splitChars pat fuel rest with
      | [] => [[c]]
      | seg :: segs => (c :: seg) :: segs

/-- Python `s.split(pat)` for a non-empty separator `pat`. -/
def pySplit (s pat : String) : List String :=
  (splitChars pat.data s.data.length s.data).map String.mk

/-- Python `pat in s` (substring test), for a non-empty `pat`:
the split produces at least two segments exactly when `pat` occurs. -/
def pyContains (s pat : String) : Bool :=
  decide (2 ≤ (pySplit s pat).length)

/-- Characters stripped by Python `str.strip()` (ASCII whitespace). -/
def isStripChar (c : Char) : Bool :=
  c == ' ' || c == '\t' || c == '\n' || c == '\r' || c == '\x0b' || c == '\x0c'

/-- Python `s.strip()`. -/
def pyStrip (s : String) : String :=
  String.mk (((s.data.dropWhile isStripChar).reverse.dropWhile isStripChar).reverse)

/-! ## people/utils.py -/

/-- A Django auth user as used by `get_user_name`. -/
structure User where
  first_name : String
  last_name : String
  username : String
deriving DecidableEq, Repr

/-- `get_user_name` from `demo_project/apps/people/utils.py`:
format a user as "First L.", falling back through the non-empty parts. -/
def get_user_name : Option User → String
  | none => ""
  | some user =>
    let first_name := pyStrip user.first_name
    let last_name := pyStrip user.last_name
    if first_name ≠ "" ∧ last_name ≠ "" then
      first_name ++ " " ++ String.mk (last_name.data.take 1) ++ "."
    else if first_name ≠ "" then first_name
    else if last_name ≠ "" then last_name
    else user.username

/-! ## videos/models.py -/

/-- The fields of `Video` that `get_embed_url` reads.  `embed_url` is a
blank-allowed URLField, so "unset" is the empty string. -/
structure Video where
  url : String
  embed_url : String
deriving DecidableEq, Repr

/-- `Video.get_embed_url` from `demo_project/apps/videos/models.py`:
prefer the stored embed URL, else derive one from a YouTube watch URL
or a youtu.be short URL, else return nothing. -/
def Video.get_embed_url (v : Video) : Option String :=
  if v.embed_url ≠ "" then some v.embed_url
  else if pyContains v.url "youtube.com/watch?v=" then
    some ("https://www.youtube.com/embed/" ++
      ((pySplit ((pySplit v.url "watch?v=").getD 1 "") "&").getD 0 ""))
  else if pyContains v.url "youtu.be/" then
    some ("https://www.youtube.com/embed/" ++
      ((pySplit ((pySplit v.url "youtu.be/").getD 1 "") "?").getD 0 ""))
  else none

/-- The segment of `s` following the first occurrence of `pat`
(Python `s.split(pat)[1]`). -/
def segmentAfter (s pat : String) : String :=
  (pySplit s pat).getD 1 ""

/-- `s` truncated at the first occurrence of `pat`
(Python `s.split(pat)[0]`). -/
def truncBefore (s pat : String) : String :=
  (pySplit s pat).getD 0 ""

/-! ## tests/conftest.py -/

/-- The `settings.DJANGO_MESSAGING` dictionary written by the autouse
fixture `configure_transport_for_tests`. -/
structure MessagingSettings where
  transport : String
  show_deleted_message_indicators : Bool
deriving DecidableEq, Repr

/-- `configure_transport_for_tests` from `demo_project/tests/conftest.py`,
as a function of whether the test node carries the websocket marker. -/
def configure_transport_for_tests (hasWebsocketMarker : Bool) : MessagingSettings :=
  if hasWebsocketMarker then
    { transport := "websocket", show_deleted_message_indicators := true }
  else
    { transport := "polling", show_deleted_message_indicators := true }

/-! ## Chat rooms and attachment keys

`ChatRoom` rows, as created by `event_detail` / `video_detail` and by the
fixture commands.  The attachment is the nullable (content_type, object_id)
pair; a queryset becomes a list of rows and `get_or_create` becomes a
find-or-append keyed on the lookup kwargs, ignoring `defaults` on a hit. -/

structure ChatRoom where
  id : Nat
  title : String
  is_room : Bool
  is_group : Bool
  content_type : Option Nat
  object_id : Option Nat
deriving DecidableEq, Repr

/-- The `defaults` dictionary passed to `ChatRoom.objects.get_or_create`
by the detail views and the fixture command. -/
structure RoomDefaults where
  title : String
  is_room : Bool
  is_group : Bool
deriving DecidableEq, Repr

/-- The attachment key of a room: its (content_type, object_id) pair when
both are set. -/
def attachedKey (c : ChatRoom) : Option (Nat × Nat) :=
  match c.content_type, c.object_id with
  | some ct, some oid => some (ct, oid)
  | _, _ => none

/-- `ChatRoom.objects.filter(content_type=ct, object_id=oid).first()`:
the first room carrying the given attachment key. -/
def findAttached (store : List ChatRoom) (ct oid : Nat) : Option ChatRoom :=
  store.find? (fun c => decide (c.content_type = some ct ∧ c.object_id = some oid))

/-- `ChatRoom.objects.get_or_create(content_type=ct, object_id=oid,
defaults=d)` as in `event_detail`, `video_detail` and the event fixture
command: return the existing room untouched, or append a fresh one built
from the lookup kwargs and the defaults.  Result: (room, created, store). -/
def get_or_create_attached (store : List ChatRoom) (ct oid : Nat)
    (d : RoomDefaults) : ChatRoom × Bool × List ChatRoom :=
  match findAttached store ct oid with
  | some c => (c, false, store)
  | none =>
    let c : ChatRoom :=
      { id := store.length, title := d.title, is_room := d.is_room,
        is_group := d.is_group, content_type := some ct, object_id := some oid }
    (c, true, store ++ [c])

/-- `ChatRoom.objects.get_or_create(title=t, is_room=True,
content_type=None, object_id=None, defaults=(is_group and g))` as in the
standalone-room loop of `create_sample_events.py`. -/
def get_or_create_standalone (store : List ChatRoom) (t : String)
    (g : Bool) : ChatRoom × Bool × List ChatRoom :=
  match store.find? (fun c => decide (c.title = t ∧ c.is_room = true ∧
      c.content_type = none ∧ c.object_id = none)) with
  | some c => (c, false, store)
  | none =>
    let c : ChatRoom :=
      { id := store.length, title := t, is_room := true,
        is_group := g, content_type := none, object_id := none }
    (c, true, store ++ [c])

/-- At most one room per attachment key: any two rooms at distinct list
positions never share a set attachment key. -/
def UniqueAttachment (store : List ChatRoom) : Prop :=
  store.Pairwise (fun c1 c2 => ∀ k, attachedKey c1 = some k → attachedKey c2 ≠ some k)

/-! ## Chat memberships

`ChatMembership` rows of one chat.  `joined` records join order (the
`created_at` timestamp); `user` identifies the member. -/

inductive Role where
  | ADMIN
  | MEMBER
deriving DecidableEq, Repr

structure ChatMembership where
  user : Nat
  role : Role
  joined : Nat
deriving DecidableEq, Repr

/-- Number of ADMIN memberships of a chat. -/
def adminCount (ms : List ChatMembership) : Nat :=
  ms.countP (fun m => decide (m.role = Role.ADMIN))

/-- Number of memberships of a chat. -/
def memberCount (ms : List ChatMembership) : Nat :=
  ms.length

/-- `ChatMembership.objects.get_or_create(chat=room, user=u,
defaults=(role and r))` restricted to one room: append a membership with the
default role unless the user already has one. -/
def membership_get_or_create (ms : List ChatMembership) (u : Nat)
    (r : Role) : List ChatMembership :=
  if ms.any (fun m => decide (m.user = u)) then ms
  else ms ++ [{ user := u, role := r, joined := ms.length }]

/-- The room-population loop of `create_sample_events.py` (and of
`create_sample_videos.py`): each sampled user gets a membership whose
default role is MEMBER, starting from the freshly created, empty room. -/
def fixture_populate_room (users : List Nat) : List ChatMembership :=
  users.foldl (fun ms u => membership_get_or_create ms u Role.MEMBER) []

/-! ## Membership leave with admin transfer (external library) -/

/-- The membership, if any, with the smallest `joined` value; on a tie the
earlier list entry wins, so the choice is deterministic. -/
def earliestJoined : List ChatMembership → Option ChatMembership
  | [] => none
  | m :: rest =>
    match earliestJoined rest with
    | none => some m
    | some b => if b.joined < m.joined then some b else some m

/-- Promote the earliest-joined membership of the list to ADMIN, leaving
every other membership untouched. -/
def promoteEarliest (ms : List ChatMembership) : List ChatMembership :=
  match earliestJoined ms with
  | none => ms
  | some e => ms.map (fun m => if m.user = e.user then { m with role := Role.ADMIN } else m)

/-- Modelled from the spec: the external library's `leave(chat, user)`
(MembershipManager), whose implementation is not part of this repository.
Per the spec, if the leaver is the only ADMIN and other members remain, the
earliest-joined remaining member is promoted to ADMIN before the leaving
membership is removed, as one atomic unit. -/
def leave (ms : List ChatMembership) (u : Nat) : List ChatMembership :=
  match ms.find? (fun m => decide (m.user = u)) with
  | none => ms
  | some m =>
    let rest := ms.filter (fun m2 => decide (m2.user ≠ u))
    if m.role = Role.ADMIN ∧ adminCount ms = 1 ∧ rest ≠ [] then
      promoteEarliest rest
    else rest

/-! ## Message lifecycle (external library) -/

inductive MsgError where
  | MessageDeleted
  | PermissionDenied
deriving DecidableEq, Repr

/-- A message row: sender, content, timestamps and its reactions. -/
structure Message where
  sender : Nat
  content : String
  created_at : Nat
  edited_at : Option Nat
  deleted_at : Option Nat
  reactions : List (Nat × String)
deriving DecidableEq, Repr

/-- Modelled from the spec: the external library's
`edit(message, actor, newContent)` (MessageLifecycle), whose implementation
is not part of this repository.  Editing a deleted message always fails
with MessageDeleted; a non-sender actor fails with PermissionDenied;
otherwise the content is replaced and `edited_at` set. -/
def editMessage (m : Message) (actor : Nat) (newContent : String)
    (now : Nat) : Except MsgError Message :=
  if m.deleted_at.isSome then Except.error MsgError.MessageDeleted
  else if actor ≠ m.sender then Except.error MsgError.PermissionDenied
  else Except.ok { m with content := newContent, edited_at := some now }

/-- Modelled from the spec: the external library's `delete(message, actor)`
(MessageLifecycle), whose implementation is not part of this repository.
A non-sender actor fails with PermissionDenied; deleting an already deleted
message is a no-op (the spec leaves no-op versus clean failure open and
requires idempotence); otherwise `deleted_at` is set. -/
def deleteMessage (m : Message) (actor : Nat) (now : Nat) :
    Except MsgError Message :=
  if actor ≠ m.sender then Except.error MsgError.PermissionDenied
  else if m.deleted_at.isSome then Except.ok m
  else Except.ok { m with deleted_at := some now }

/-! ## Reactions (external library) -/

/-- Modelled from the spec: the external library's
`react(message, user, emoji)` (MessageLifecycle), whose implementation is
not part of this repository, restricted to one message's reaction list.
The (user, emoji) pair is stored at most once: reacting again with the
same pair is a no-op. -/
def react (rs : List (Nat × String)) (u : Nat) (e : String) :
    List (Nat × String) :=
  if (u, e) ∈ rs then rs else rs ++ [(u, e)]

/-- How many stored reactions of the list are by user `u` with emoji `e`. -/
def countReaction (rs : List (Nat × String)) (u : Nat) (e : String) : Nat :=
  rs.countP (fun p => decide (p = (u, e)))

/-! ## events/models.py and events/views.py -/

/-- The fields of `Event` that `is_full` and `join_event` read; the
attendees many-to-many set becomes a duplicate-free list. -/
structure Event where
  attendees : List Nat
  max_attendees : Option Nat
  is_public : Bool
deriving DecidableEq, Repr

/-- `Event.attendee_count`. -/
def attendee_count (ev : Event) : Nat :=
  ev.attendees.length

/-- `Event.is_full` from `demo_project/apps/events/models.py`: a falsy
`max_attendees` (None or 0) means never full, else compare the count. -/
def is_full (ev : Event) : Bool :=
  match ev.max_attendees with
  | none => false
  | some m => if m = 0 then false else decide (m ≤ attendee_count ev)

/-- `event.attendees.add(user)`: a many-to-many add, a no-op when the user
already attends. -/
def addAttendee (ev : Event) (u : Nat) : Event :=
  if u ∈ ev.attendees then ev else { ev with attendees := ev.attendees ++ [u] }

/-- The JSON responses `join_event` can produce. -/
inductive JoinResponse where
  | err (msg : String) (status : Nat)
  | success (count : Nat)
deriving DecidableEq, Repr

/-- `join_event` from `demo_project/apps/events/views.py`, after the
`get_object_or_404(..., is_public=True)` guard: reject a full event with a
400 "Event is full" JSON error, else add the requester and return the new
attendee count. -/
def join_event (ev : Event) (u : Nat) : JoinResponse × Event :=
  if is_full ev then (JoinResponse.err "Event is full" 400, ev)
  else
    let ev2 := addAttendee ev u
    (JoinResponse.success (attendee_count ev2), ev2)

/-! ## Theorems -/

/-- C7: the transport switch is determined solely by the markers: the
fixture sets TRANSPORT to "websocket" exactly when the node carries the
websocket marker and to "polling" otherwise, and sets
SHOW_DELETED_MESSAGE_INDICATORS to True in both cases. -/
theorem configure_transport_spec (b : Bool) :
    ((configure_transport_for_tests b).transport = "websocket" ↔ b = true) ∧
    (b = false → (configure_transport_for_tests b).transport = "polling") ∧
    (configure_transport_for_tests b).show_deleted_message_indicators = true := by
  cases b <;> decide

theorem configure_transport_spec_witness :
    (configure_transport_for_tests false).transport = "polling" ∧
    (configure_transport_for_tests true).transport = "websocket" :=
  ⟨(configure_transport_spec false).2.1 rfl,
   (configure_transport_spec true).1.mpr rfl⟩

/-- C9: get_user_name is total and cascading: empty string for a null
user; "First L." when both stripped names are non-empty; the single
non-empty stripped name when only one is; the username when both are
empty. -/
theorem get_user_name_spec (user : User) :
    get_user_name none = "" ∧
    (pyStrip user.first_name ≠ "" → pyStrip user.last_name ≠ "" →
      get_user_name (some user) =
        pyStrip user.first_name ++ " " ++
          String.mk ((pyStrip user.last_name).data.take 1) ++ ".") ∧
    (pyStrip user.first_name ≠ "" → pyStrip user.last_name = "" →
      get_user_name (some user) = pyStrip user.first_name) ∧
    (pyStrip user.first_name = "" → pyStrip user.last_name ≠ "" →
      get_user_name (some user) = pyStrip user.last_name) ∧
    (pyStrip user.first_name = "" → pyStrip user.last_name = "" →
      get_user_name (some user) = user.username) := by
  refine ⟨rfl, ?_, ?_, ?_, ?_⟩ <;> intro h1 h2 <;> simp [get_user_name, h1, h2]

theorem get_user_name_spec_witness :
    get_user_name (some ⟨" Emma ", "Wilson", "emma"⟩) = "Emma W." := by
  have h := (get_user_name_spec ⟨" Emma ", "Wilson", "emma"⟩).2.1
    (by decide) (by decide)
  exact h.trans (by decide)

/-- C10: get_embed_url prefers the stored embed_url when non-empty;
otherwise a url containing "youtube.com/watch?v=" yields the embed stem
followed by the segment after "watch?v=" truncated at the first "&"; a
url containing "youtu.be/" yields the stem followed by the segment after
"youtu.be/" truncated at the first "?"; any other url yields none. -/
theorem get_embed_url_spec (v : Video) :
    (v.embed_url ≠ "" → v.get_embed_url = some v.embed_url) ∧
    (v.embed_url = "" → pyContains v.url "youtube.com/watch?v=" = true →
      v.get_embed_url = some ("https://www.youtube.com/embed/" ++
        truncBefore (segmentAfter v.url "watch?v=") "&")) ∧
    (v.embed_url = "" → pyContains v.url "youtube.com/watch?v=" = false →
      pyContains v.url "youtu.be/" = true →
      v.get_embed_url = some ("https://www.youtube.com/embed/" ++
        truncBefore (segmentAfter v.url "youtu.be/") "?")) ∧
    (v.embed_url = "" → pyContains v.url "youtube.com/watch?v=" = false →
      pyContains v.url "youtu.be/" = false → v.get_embed_url = none) := by
  refine ⟨?_, ?_, ?_, ?_⟩
  · intro h; simp [Video.get_embed_url, h]
  · intro h1 h2
    simp [Video.get_embed_url, segmentAfter, truncBefore, h1, h2]
  · intro h1 h2 h3
    simp [Video.get_embed_url, segmentAfter, truncBefore, h1, h2, h3]
  · intro h1 h2 h3
    simp [Video.get_embed_url, h1, h2, h3]

theorem get_embed_url_spec_witness :
    Video.get_embed_url ⟨"https://www.youtube.com/watch?v=dQw4w9WgXcQ&t=42", ""⟩ =
      some "https://www.youtube.com/embed/dQw4w9WgXcQ" := by
  have h := (get_embed_url_spec
    ⟨"https://www.youtube.com/watch?v=dQw4w9WgXcQ&t=42", ""⟩).2.1 rfl (by decide)
  exact h.trans (by decide)

/-- C8: join_event is guarded by capacity and atomic on rejection: a set,
non-zero max_attendees with attendee count at or above it yields the 400
"Event is full" JSON error with the attendee set unchanged; a null or zero
max_attendees means is_full is always false and join_event always
succeeds, adding the requester and returning the new attendee count. -/
theorem join_event_spec (ev : Event) (u : Nat) (m : Nat) :
    (ev.max_attendees = some m → m ≠ 0 → m ≤ attendee_count ev →
      join_event ev u = (JoinResponse.err "Event is full" 400, ev)) ∧
    (ev.max_attendees = none ∨ ev.max_attendees = some 0 →
      is_full ev = false ∧
      join_event ev u =
        (JoinResponse.success (attendee_count (addAttendee ev u)), addAttendee ev u) ∧
      u ∈ (join_event ev u).2.attendees) := by
  constructor
  · intro h1 h2 h3
    have hf : is_full ev = true := by simp [is_full, h1, h2, h3]
    simp [join_event, hf]
  · intro h
    have hf : is_full ev = false := by
      rcases h with h | h <;> simp [is_full, h]
    refine ⟨hf, by simp [join_event, hf], ?_⟩
    simp only [join_event, hf, Bool.false_eq_true, if_false]
    by_cases hu : u ∈ ev.attendees <;> simp [addAttendee, hu]

theorem join_event_spec_witness :
    join_event ⟨[7], some 1, true⟩ 9 =
      (JoinResponse.err "Event is full" 400, ⟨[7], some 1, true⟩) :=
  (join_event_spec ⟨[7], some 1, true⟩ 9 1).1 rfl (by decide) (by decide)

/-- C5: for every message whose deleted_at is set, edit fails with
MessageDeleted for every actor and content, and a second delete is
idempotent: by the sender it is a no-op returning the unchanged message,
and by any actor it either returns the unchanged message or fails cleanly
with PermissionDenied, never altering content, deleted_at or reactions. -/
theorem deleted_message_spec (m : Message) (actor : Nat) (c : String)
    (now : Nat) (hdel : m.deleted_at.isSome = true) :
    editMessage m actor c now = Except.error MsgError.MessageDeleted ∧
    deleteMessage m m.sender now = Except.ok m ∧
    (deleteMessage m actor now = Except.ok m ∨
      deleteMessage m actor now = Except.error MsgError.PermissionDenied) := by
  refine ⟨?_, ?_, ?_⟩
  · simp [editMessage, hdel]
  · simp [deleteMessage, hdel]
  · by_cases h : actor = m.sender
    · left; simp [deleteMessage, h, hdel]
    · right; simp [deleteMessage, h]

theorem deleted_message_spec_witness :
    editMessage ⟨1, "hi", 0, none, some 5, []⟩ 2 "x" 9 =
      Except.error MsgError.MessageDeleted ∧
    deleteMessage ⟨1, "hi", 0, none, some 5, []⟩ 1 9 =
      Except.ok ⟨1, "hi", 0, none, some 5, []⟩ := by
  have h := deleted_message_spec ⟨1, "hi", 0, none, some 5, []⟩ 2 "x" 9 (by decide)
  exact ⟨h.1, h.2.1⟩

/-! Helper lemmas about `react`. -/

theorem react_self_mem (rs : List (Nat × String)) (u : Nat) (e : String) :
    (u, e) ∈ react rs u e := by
  unfold react; split <;> simp_all

theorem react_absorb (rs : List (Nat × String)) (u : Nat) (e : String)
    (h : (u, e) ∈ rs) : react rs u e = rs := by
  simp [react, h]

theorem react_mono (rs : List (Nat × String)) (u : Nat) (e : String)
    (p : Nat × String) (h : p ∈ rs) : p ∈ react rs u e := by
  unfold react; split <;> simp_all

/-- C6: reactions are unique per (message, user, emoji) triple: reacting
twice with the same pair is idempotent and, starting without the pair,
leaves exactly one stored reaction; distinct emojis by the same user are
stored as independent entries. -/
theorem react_spec (rs : List (Nat × String)) (u : Nat) (e e2 : String) :
    react (react rs u e) u e = react rs u e ∧
    ((u, e) ∉ rs → countReaction (react (react rs u e) u e) u e = 1) ∧
    (e ≠ e2 → (u, e) ∈ react (react rs u e) u e2 ∧
      (u, e2) ∈ react (react rs u e) u e2) := by
  have hidem : react (react rs u e) u e = react rs u e :=
    react_absorb _ u e (react_self_mem rs u e)
  refine ⟨hidem, ?_, ?_⟩
  · intro hnot
    have h1 : react rs u e = rs ++ [(u, e)] := by simp [react, hnot]
    rw [hidem, h1]
    have h0 : List.countP (fun p => decide (p = (u, e))) rs = 0 := by
      rw [List.countP_eq_zero]
      intro p hp
      simp only [decide_eq_true_eq]
      exact fun hpe => hnot (hpe ▸ hp)
    simp [countReaction, List.countP_append, List.countP_cons, h0]
  · intro _
    exact ⟨react_mono _ u e2 _ (react_self_mem rs u e), react_self_mem _ u e2⟩

theorem react_spec_witness :
    countReaction (react (react [] 1 "a") 1 "a") 1 "a" = 1 ∧
    (1, "a") ∈ react (react ([] : List (Nat × String)) 1 "a") 1 "b" := by
  have h := react_spec [] 1 "a" "b"
  exact ⟨h.2.1 (by decide), (h.2.2 (by decide)).1⟩

/-! Helper lemma: `find?` skips a list in which nothing matches. -/

theorem find?_append_of_none {α : Type} (p : α → Bool) (l1 l2 : List α)
    (h : l1.find? p = none) : (l1 ++ l2).find? p = l2.find? p := by
  induction l1 with
  | nil => rfl
  | cons a t ih =>
    rw [List.find?_eq_none] at h
    have ha : ¬ p a := h a (List.mem_cons_self a t)
    have ht : t.find? p = none := by
      rw [List.find?_eq_none]
      exact fun x hx => h x (List.mem_cons_of_mem a hx)
    simpa [List.find?_cons_of_neg _ ha] using ih ht

/-- C3: get-or-create of an attached chat is idempotent per
(content_type, object_id): on a store with no room for the key, the first
call creates (created = true), and any later call with the same key and
arbitrary defaults returns the very same room with created = false and
the store unchanged; a call on a store that already holds the key returns
that room unchanged regardless of defaults. -/
theorem get_or_create_attached_hit (store : List ChatRoom) (ct oid : Nat)
    (d : RoomDefaults) (c : ChatRoom)
    (h : findAttached store ct oid = some c) :
    get_or_create_attached store ct oid d = (c, false, store) := by
  simp [get_or_create_attached, h]

theorem get_or_create_attached_idempotent (store : List ChatRoom)
    (ct oid : Nat) (d : RoomDefaults) (c : ChatRoom) :
    (findAttached store ct oid = none →
      (get_or_create_attached store ct oid d).2.1 = true ∧
      ∀ d3, get_or_create_attached
          (get_or_create_attached store ct oid d).2.2 ct oid d3 =
        ((get_or_create_attached store ct oid d).1, false,
          (get_or_create_attached store ct oid d).2.2)) ∧
    (findAttached store ct oid = some c →
      get_or_create_attached store ct oid d = (c, false, store)) := by
  constructor
  · intro h
    refine ⟨by simp [get_or_create_attached, h], ?_⟩
    intro d3
    have h22 : (get_or_create_attached store ct oid d).2.2 =
        store ++ [(get_or_create_attached store ct oid d).1] := by
      simp [get_or_create_attached, h]
    have h1ct : (get_or_create_attached store ct oid d).1.content_type = some ct := by
      simp [get_or_create_attached, h]
    have h1oid : (get_or_create_attached store ct oid d).1.object_id = some oid := by
      simp [get_or_create_attached, h]
    have hfind : findAttached (get_or_create_attached store ct oid d).2.2 ct oid =
        some (get_or_create_attached store ct oid d).1 := by
      rw [h22]
      unfold findAttached
      rw [find?_append_of_none _ _ _ h]
      have hp : (fun c => decide (c.content_type = some ct ∧ c.object_id = some oid))
          (get_or_create_attached store ct oid d).1 = true := by
        simp [h1ct, h1oid]
      exact List.find?_cons_of_pos _ hp
    exact get_or_create_attached_hit _ _ _ d3 _ hfind
  · intro h
    exact get_or_create_attached_hit _ _ _ d _ h

theorem get_or_create_attached_idempotent_witness :
    (get_or_create_attached [] 1 2 ⟨"A", true, true⟩).2.1 = true ∧
    get_or_create_attached (get_or_create_attached [] 1 2 ⟨"A", true, true⟩).2.2
        1 2 ⟨"B", false, false⟩ =
      ((get_or_create_attached [] 1 2 ⟨"A", true, true⟩).1, false,
        (get_or_create_attached [] 1 2 ⟨"A", true, true⟩).2.2) := by
  have h := (get_or_create_attached_idempotent [] 1 2 ⟨"A", true, true⟩
    ⟨0, "", false, false, none, none⟩).1 (by decide)
  exact ⟨h.1, h.2 ⟨"B", false, false⟩⟩

/-! Helper lemma: when an attachment key is a given pair. -/

theorem attachedKey_eq_pair (c : ChatRoom) (ct oid : Nat) :
    attachedKey c = some (ct, oid) ↔
      (c.content_type = some ct ∧ c.object_id = some oid) := by
  unfold attachedKey
  rcases hc : c.content_type with _ | a <;> rcases ho : c.object_id with _ | b <;>
    simp [hc, ho]

/-- C4: at most one chat per attachment key: both chat-creating
operations (the get-or-create of the detail views and event fixture, and
the standalone-room get-or-create of the fixture command) preserve the
invariant that two distinct stored rooms never share a set
(content_type, object_id) pair. -/
theorem unique_attachment_preserved (store : List ChatRoom) (ct oid : Nat)
    (d : RoomDefaults) (t : String) (g : Bool)
    (h : UniqueAttachment store) :
    UniqueAttachment (get_or_create_attached store ct oid d).2.2 ∧
    UniqueAttachment (get_or_create_standalone store t g).2.2 := by
  constructor
  · unfold get_or_create_attached
    cases hfind : findAttached store ct oid with
    | some c0 => simpa using h
    | none =>
      simp only [UniqueAttachment, List.pairwise_append]
      refine ⟨h, by simp, ?_⟩
      intro a ha b hb k hak hbk
      rw [List.mem_singleton] at hb
      subst hb
      have hk : ((ct, oid) : Nat × Nat) = k := Option.some_inj.mp hbk
      rw [← hk] at hak
      have hmatch := (attachedKey_eq_pair a ct oid).mp hak
      unfold findAttached at hfind
      rw [List.find?_eq_none] at hfind
      exact hfind a ha (by simpa using hmatch)
  · unfold get_or_create_standalone
    cases hfind : store.find? (fun c => decide (c.title = t ∧ c.is_room = true ∧
        c.content_type = none ∧ c.object_id = none)) with
    | some c0 => simpa using h
    | none =>
      simp only [UniqueAttachment, List.pairwise_append]
      refine ⟨h, by simp, ?_⟩
      intro a ha b hb k hak hbk
      rw [List.mem_singleton] at hb
      subst hb
      exact Option.noConfusion hbk

theorem unique_attachment_preserved_witness :
    UniqueAttachment (get_or_create_attached [] 1 2 ⟨"A", true, true⟩).2.2 :=
  (unique_attachment_preserved [] 1 2 ⟨"A", true, true⟩ "T" true List.Pairwise.nil).1

/-! Helper lemmas about the fixture room-population loop. -/

theorem membership_get_or_create_roles (ms : List ChatMembership) (u : Nat)
    (r : Role) (h : ∀ m ∈ ms, m.role = r) :
    ∀ m ∈ membership_get_or_create ms u r, m.role = r := by
  unfold membership_get_or_create
  split
  · exact h
  · intro m hm
    rcases List.mem_append.mp hm with hm | hm
    · exact h m hm
    · simp at hm
      rw [hm]

theorem membership_get_or_create_length (ms : List ChatMembership) (u : Nat)
    (r : Role) : ms.length ≤ (membership_get_or_create ms u r).length := by
  unfold membership_get_or_create
  split
  · exact Nat.le_refl _
  · simp

theorem fixture_fold_roles (users : List Nat) (ms : List ChatMembership)
    (h : ∀ m ∈ ms, m.role = Role.MEMBER) :
    ∀ m ∈ users.foldl (fun ms u => membership_get_or_create ms u Role.MEMBER) ms,
      m.role = Role.MEMBER := by
  induction users generalizing ms with
  | nil => exact h
  | cons u rest ih =>
    exact ih _ (membership_get_or_create_roles ms u Role.MEMBER h)

theorem fixture_fold_length (users : List Nat) (ms : List ChatMembership) :
    ms.length ≤
      (users.foldl (fun ms u => membership_get_or_create ms u Role.MEMBER) ms).length := by
  induction users generalizing ms with
  | nil => exact Nat.le_refl _
  | cons u rest ih =>
    exact Nat.le_trans (membership_get_or_create_length ms u Role.MEMBER) (ih _)

/-- C1 (counterexample): the claim fails on the fixture command's
room-population path: populating a room with users 1 and 2 leaves a room
with at least one member whose ADMIN membership count is zero. -/
theorem fixture_room_admin_cex :
    ¬ (1 ≤ memberCount (fixture_populate_room [1, 2]) →
        1 ≤ adminCount (fixture_populate_room [1, 2])) := by
  decide

/-- C1 (amended): the fixture command's room-population path assigns role
MEMBER to every membership it creates, so a room it populates from a
non-empty user sample has at least one member and exactly zero ADMIN
memberships; the at-least-one-ADMIN invariant therefore does not extend
to rooms populated by the fixture command. -/
theorem fixture_populate_room_all_members (users : List Nat) :
    (∀ m ∈ fixture_populate_room users, m.role = Role.MEMBER) ∧
    adminCount (fixture_populate_room users) = 0 ∧
    (users ≠ [] → 1 ≤ memberCount (fixture_populate_room users)) := by
  have hroles : ∀ m ∈ fixture_populate_room users, m.role = Role.MEMBER :=
    fixture_fold_roles users [] (by intro m hm; cases hm)
  refine ⟨hroles, ?_, ?_⟩
  · rw [adminCount, List.countP_eq_zero]
    intro m hm
    simp only [decide_eq_true_eq]
    rw [hroles m hm]
    intro hcontra
    cases hcontra
  · intro hne
    rcases users with _ | ⟨u, rest⟩
    · exact absurd rfl hne
    · unfold fixture_populate_room
      rw [List.foldl_cons]
      have h1 : (membership_get_or_create [] u Role.MEMBER).length = 1 := by
        simp [membership_get_or_create]
      calc 1 = (membership_get_or_create [] u Role.MEMBER).length := h1.symm
        _ ≤ _ := fixture_fold_length rest _

theorem fixture_populate_room_all_members_witness :
    adminCount (fixture_populate_room [1, 2]) = 0 ∧
    1 ≤ memberCount (fixture_populate_room [1, 2]) := by
  have h := fixture_populate_room_all_members [1, 2]
  exact ⟨h.2.1, h.2.2 (by decide)⟩

/-! Helper lemmas for the leave operation. -/

theorem find?_user_of_nodup (ms : List ChatMembership) (u : Nat)
    (mu : ChatMembership) (hnd : (ms.map (fun m => m.user)).Nodup)
    (hmem : mu ∈ ms) (hu : mu.user = u) :
    ms.find? (fun m => decide (m.user = u)) = some mu := by
  induction ms with
  | nil => cases hmem
  | cons a t ih =>
    rw [List.map_cons, List.nodup_cons] at hnd
    rcases List.mem_cons.mp hmem with rfl | hmem2
    · exact List.find?_cons_of_pos _ (by simp [hu])
    · have hau : a.user ≠ u := by
        intro hcontra
        apply hnd.1
        rw [hcontra, ← hu]
        exact List.mem_map_of_mem _ hmem2
      rw [List.find?_cons_of_neg _ (by simp [hau])]
      exact ih hnd.2 hmem2

theorem admin_eq_of_count_one (ms : List ChatMembership) (mu : ChatMembership)
    (hmu : mu ∈ ms) (hadmin : mu.role = Role.ADMIN)
    (honly : adminCount ms = 1) :
    ∀ m ∈ ms, m.role = Role.ADMIN → m = mu := by
  have hlen : (ms.filter (fun m => decide (m.role = Role.ADMIN))).length = 1 := by
    rw [← List.countP_eq_length_filter]
    exact honly
  obtain ⟨x, hx⟩ := List.length_eq_one.mp hlen
  have hmux : mu = x := by
    have hmf : mu ∈ ms.filter (fun m => decide (m.role = Role.ADMIN)) :=
      List.mem_filter.mpr ⟨hmu, by simp [hadmin]⟩
    rw [hx] at hmf
    exact List.mem_singleton.mp hmf
  intro m hm hrole
  have hmf : m ∈ ms.filter (fun m => decide (m.role = Role.ADMIN)) :=
    List.mem_filter.mpr ⟨hm, by simp [hrole]⟩
  rw [hx] at hmf
  exact (List.mem_singleton.mp hmf).trans hmux.symm

theorem earliestJoined_spec (l : List ChatMembership) (hne : l ≠ []) :
    ∃ e, earliestJoined l = some e ∧ e ∈ l ∧ ∀ m ∈ l, e.joined ≤ m.joined := by
  induction l with
  | nil => exact absurd rfl hne
  | cons a t ih =>
    cases ht : earliestJoined t with
    | none =>
      have htnil : t = [] := by
        cases t with
        | nil => rfl
        | cons b t2 =>
          exfalso
          unfold earliestJoined at ht
          rcases h2 : earliestJoined t2 with _ | b2
          · rw [h2] at ht
            cases ht
          · rw [h2] at ht
            have ht2 : (if b2.joined < b.joined then some b2 else some b) =
                (none : Option ChatMembership) := ht
            by_cases hj : b2.joined < b.joined
            · rw [if_pos hj] at ht2
              cases ht2
            · rw [if_neg hj] at ht2
              cases ht2
      subst htnil
      refine ⟨a, rfl, List.mem_singleton.mpr rfl, ?_⟩
      intro m hm
      rw [List.mem_singleton.mp hm]
    | some b =>
      have htne : t ≠ [] := by
        intro hx
        subst hx
        simp [earliestJoined] at ht
      obtain ⟨e, he1, he2, he3⟩ := ih htne
      have heb : b = e := by
        rw [ht] at he1
        exact Option.some_inj.mp he1
      subst heb
      by_cases hlt : b.joined < a.joined
      · refine ⟨b, ?_, List.mem_cons_of_mem _ he2, ?_⟩
        · unfold earliestJoined
          rw [ht]
          show (if b.joined < a.joined then some b else some a) = some b
          exact if_pos hlt
        · intro m hm
          rcases List.mem_cons.mp hm with rfl | hm
          · exact Nat.le_of_lt hlt
          · exact he3 m hm
      · refine ⟨a, ?_, List.mem_cons_self _ _, ?_⟩
        · unfold earliestJoined
          rw [ht]
          show (if b.joined < a.joined then some b else some a) = some a
          exact if_neg hlt
        · intro m hm
          rcases List.mem_cons.mp hm with rfl | hm
          · exact Nat.le_refl _
          · exact Nat.le_trans (Nat.le_of_not_lt hlt) (he3 m hm)

theorem countP_user_eq_one (l : List ChatMembership) (e : ChatMembership)
    (hnd : (l.map (fun m => m.user)).Nodup) (he : e ∈ l) :
    l.countP (fun m => decide (m.user = e.user)) = 1 := by
  induction l with
  | nil => cases he
  | cons a t ih =>
    rw [List.map_cons, List.nodup_cons] at hnd
    rcases List.mem_cons.mp he with rfl | he2
    · have h0 : t.countP (fun m => decide (m.user = e.user)) = 0 := by
        rw [List.countP_eq_zero]
        intro m hm
        simp only [decide_eq_true_eq]
        intro hcontra
        exact hnd.1 (hcontra ▸ List.mem_map_of_mem _ hm)
      simp [List.countP_cons, h0]
    · have hane : a.user ≠ e.user := by
        intro hc
        exact hnd.1 (hc ▸ List.mem_map_of_mem _ he2)
      simp [List.countP_cons, hane, ih hnd.2 he2]

theorem countP_user_ne_add (l : List ChatMembership) (u : Nat) :
    l.countP (fun m => decide (m.user = u)) +
      l.countP (fun m => decide (m.user ≠ u)) = l.length := by
  induction l with
  | nil => rfl
  | cons a t ih =>
    by_cases ha : a.user = u <;> simp [List.countP_cons, ha] at ih ⊢ <;> omega

/-- C2: when user u is the only ADMIN of a chat and other members remain,
leave(chat, u) promotes exactly one remaining member — the earliest-joined
remaining member, deterministically — to ADMIN while removing u's
membership: the result is the remaining memberships with precisely the
earliest joiner's role raised, it contains exactly one ADMIN, no
membership of u, and one membership fewer than before. -/
theorem leave_sole_admin_promotes (ms : List ChatMembership) (u : Nat)
    (mu : ChatMembership)
    (hnd : (ms.map (fun m => m.user)).Nodup)
    (hmu : mu ∈ ms) (huser : mu.user = u) (hadmin : mu.role = Role.ADMIN)
    (honly : adminCount ms = 1)
    (hrest : ms.filter (fun m2 => decide (m2.user ≠ u)) ≠ []) :
    ∃ e, e ∈ ms.filter (fun m2 => decide (m2.user ≠ u)) ∧
      (∀ m ∈ ms.filter (fun m2 => decide (m2.user ≠ u)), e.joined ≤ m.joined) ∧
      leave ms u = (ms.filter (fun m2 => decide (m2.user ≠ u))).map
        (fun m => if m.user = e.user then { m with role := Role.ADMIN } else m) ∧
      adminCount (leave ms u) = 1 ∧
      (∀ m ∈ leave ms u, m.user ≠ u) ∧
      memberCount (leave ms u) = memberCount ms - 1 ∧
      (∀ m ∈ leave ms u, (m.role = Role.ADMIN ↔ m.user = e.user)) ∧
      (∀ m ∈ leave ms u, m.user ≠ e.user → m ∈ ms) := by
  have hfind : ms.find? (fun m => decide (m.user = u)) = some mu :=
    find?_user_of_nodup ms u mu hnd hmu huser
  have hleave : leave ms u =
      promoteEarliest (ms.filter (fun m2 => decide (m2.user ≠ u))) := by
    unfold leave
    rw [hfind]
    show (if mu.role = Role.ADMIN ∧ adminCount ms = 1 ∧
        ms.filter (fun m2 => decide (m2.user ≠ u)) ≠ [] then
      promoteEarliest (ms.filter (fun m2 => decide (m2.user ≠ u)))
    else ms.filter (fun m2 => decide (m2.user ≠ u))) = _
    rw [if_pos ⟨hadmin, honly, hrest⟩]
  obtain ⟨e, heq, hein, hemin⟩ :=
    earliestJoined_spec (ms.filter (fun m2 => decide (m2.user ≠ u))) hrest
  have hpe : promoteEarliest (ms.filter (fun m2 => decide (m2.user ≠ u))) =
      (ms.filter (fun m2 => decide (m2.user ≠ u))).map
        (fun m => if m.user = e.user then { m with role := Role.ADMIN } else m) := by
    unfold promoteEarliest
    rw [heq]
  have hall : ∀ m ∈ ms, m.role = Role.ADMIN → m = mu :=
    admin_eq_of_count_one ms mu hmu hadmin honly
  have hrestmem : ∀ m ∈ ms.filter (fun m2 => decide (m2.user ≠ u)),
      m.role = Role.MEMBER := by
    intro m hm
    rw [List.mem_filter] at hm
    rcases hm with ⟨hm1, hm2⟩
    simp only [decide_eq_true_eq] at hm2
    cases hrole : m.role with
    | ADMIN =>
      have hmeq := hall m hm1 hrole
      rw [hmeq] at hm2
      exact absurd huser hm2
    | MEMBER => rfl
  have hndrest : ((ms.filter (fun m2 => decide (m2.user ≠ u))).map
      (fun m => m.user)).Nodup :=
    List.Nodup.sublist (List.Sublist.map _ (List.filter_sublist ms)) hnd
  have hcount : adminCount (leave ms u) = 1 := by
    rw [hleave, hpe]
    unfold adminCount
    rw [List.countP_map]
    have hcg : List.countP ((fun m => decide (m.role = Role.ADMIN)) ∘
        (fun m => if m.user = e.user then { m with role := Role.ADMIN } else m))
        (ms.filter (fun m2 => decide (m2.user ≠ u))) =
        List.countP (fun m => decide (m.user = e.user))
        (ms.filter (fun m2 => decide (m2.user ≠ u))) := by
      apply List.countP_congr
      intro m hm
      by_cases hme : m.user = e.user
      · simp [Function.comp, hme]
      · simp [Function.comp, hme, hrestmem m hm]
    rw [hcg]
    exact countP_user_eq_one _ e hndrest hein
  have husers : ∀ m ∈ leave ms u, m.user ≠ u := by
    rw [hleave, hpe]
    intro m hm
    rw [List.mem_map] at hm
    obtain ⟨m0, hm0, rfl⟩ := hm
    have huser0 : (if m0.user = e.user then { m0 with role := Role.ADMIN }
        else m0).user = m0.user := by
      split <;> rfl
    rw [huser0]
    have := (List.mem_filter.mp hm0).2
    simpa using this
  have hlen : memberCount (leave ms u) = memberCount ms - 1 := by
    rw [hleave, hpe]
    unfold memberCount
    rw [List.length_map]
    have h1 : ms.countP (fun m => decide (m.user = u)) = 1 := by
      have h := countP_user_eq_one ms mu hnd hmu
      simpa [huser] using h
    have h2 := countP_user_ne_add ms u
    rw [← List.countP_eq_length_filter]
    omega
  have hiff : ∀ m ∈ leave ms u, (m.role = Role.ADMIN ↔ m.user = e.user) := by
    rw [hleave, hpe]
    intro m hm
    rw [List.mem_map] at hm
    obtain ⟨m0, hm0, rfl⟩ := hm
    by_cases hme : m0.user = e.user
    · simp [hme]
    · simp [hme, hrestmem m0 hm0]
  have hunch : ∀ m ∈ leave ms u, m.user ≠ e.user → m ∈ ms := by
    rw [hleave, hpe]
    intro m hm hne
    rw [List.mem_map] at hm
    obtain ⟨m0, hm0, rfl⟩ := hm
    have huser0 : (if m0.user = e.user then { m0 with role := Role.ADMIN }
        else m0).user = m0.user := by
      split <;> rfl
    rw [huser0] at hne
    rw [if_neg hne]
    exact (List.mem_filter.mp hm0).1
  exact ⟨e, hein, hemin, hleave.trans hpe, hcount, husers, hlen, hiff, hunch⟩

theorem leave_sole_admin_promotes_witness :
    adminCount (leave [⟨1, Role.ADMIN, 0⟩, ⟨2, Role.MEMBER, 1⟩,
      ⟨3, Role.MEMBER, 2⟩] 1) = 1 ∧
    memberCount (leave [⟨1, Role.ADMIN, 0⟩, ⟨2, Role.MEMBER, 1⟩,
      ⟨3, Role.MEMBER, 2⟩] 1) = 2 := by
  obtain ⟨e, -, -, -, hcount, -, hlen, -, -⟩ :=
    leave_sole_admin_promotes
      [⟨1, Role.ADMIN, 0⟩, ⟨2, Role.MEMBER, 1⟩, ⟨3, Role.MEMBER, 2⟩] 1
      ⟨1, Role.ADMIN, 0⟩ (by decide) (by decide) rfl rfl (by decide) (by decide)
  exact ⟨hcount, hlen⟩
